import Mathlib

/-!
Verification of the costs-report subsystem of the `cost_manager` repository
(`src/costs-service/app.js`, models in `src/costs-service/models` and the
report cache schema).

The embedding below translates the JavaScript source into Lean:
JavaScript numbers are modelled as `Rat` (a query parameter that parses to
`NaN` is `Option.none`), timestamps as a record of local calendar fields
ordered lexicographically (one pinned server clock, as the source assumes),
MongoDB collections as lists, and the `GET /api/report` handler as a state
function over those lists.  Storage failures, which in the source appear as
rejected promises from Mongoose, are injected through an explicit `Plan`
oracle; an access trace records how many storage round trips the handler
performed so that "no record-store query happened" is expressible.
-/

namespace CostManager

/-- A point in time on the server's pinned local clock: calendar fields plus
milliseconds within the day, compared lexicographically.  This models both
JavaScript `Date` values and BSON dates (with a single fixed timezone, the
two orders agree). -/
structure Timestamp where
  year : Int
  month : Nat
  day : Nat
  ms : Nat
deriving DecidableEq

/-- `a ≤ b` on timestamps (lexicographic on year, month, day, ms). -/
def Timestamp.leb (a b : Timestamp) : Bool :=
  decide (a.year < b.year) ||
    (decide (a.year = b.year) && (decide (a.month < b.month) ||
      (decide (a.month = b.month) && (decide (a.day < b.day) ||
        (decide (a.day = b.day) && decide (a.ms ≤ b.ms))))))

/-- `a < b` on timestamps. -/
def Timestamp.ltb (a b : Timestamp) : Bool :=
  !(Timestamp.leb b a)

/-- One document of the `costs` collection
(`src/costs-service/models/cost.model.js`): description, category, userid,
sum (a decimal number) and createdAt. -/
structure CostRecord where
  description : String
  category : String
  userid : Rat
  sum : Rat
  createdAt : Timestamp
deriving DecidableEq

/-- One entry of a report bucket, as produced by `buildReport`:
`{ sum, description, day }`. -/
structure ReportEntry where
  sum : Rat
  description : String
  day : Nat
deriving DecidableEq

/-- The report document returned by `buildReport`:
`{ userid, year, month, costs }` where `costs` is the array of per-category
singleton objects, modelled as an association list in array order. -/
structure Report where
  userid : Rat
  year : Rat
  month : Rat
  costs : List (String × List ReportEntry)
deriving DecidableEq

/-- The five allowed categories, in the order of `ALLOWED_CATEGORIES`
(`src/costs-service/app.js` line 68). -/
def ALLOWED_CATEGORIES : List String :=
  ["food", "health", "housing", "sports", "education"]

/-- The five category keys in the fixed display order of the `grouped`
object literal in `buildReport` (lines 178-184). -/
def groupedKeyOrder : List String :=
  ["food", "education", "health", "housing", "sports"]

/-- Properties inherited by every plain object literal from
`Object.prototype`.  In `buildReport` the guard `if (grouped[c.category])`
evaluates the property `c.category` on the object literal `grouped`; for
these inherited names the lookup yields a truthy value (a function, or
`Object.prototype` itself for `__proto__`) even though it is not one of the
five own array-valued keys, and the subsequent `.push` call throws a
`TypeError`. -/
def objectProtoKeys : List String :=
  ["constructor", "hasOwnProperty", "isPrototypeOf", "propertyIsEnumerable",
   "toLocaleString", "toString", "valueOf",
   "__defineGetter__", "__defineSetter__", "__lookupGetter__",
   "__lookupSetter__", "__proto__"]

/-- The five accumulating buckets of `buildReport`'s `grouped` object. -/
structure Grouped where
  food : List ReportEntry
  education : List ReportEntry
  health : List ReportEntry
  housing : List ReportEntry
  sports : List ReportEntry
deriving DecidableEq

/-- The empty `grouped` object (lines 178-184). -/
def Grouped.empty : Grouped := ⟨[], [], [], [], []⟩

/-- The projection `{ sum: c.sum, description: c.description, day:
dayOfMonth(c.createdAt) }` (lines 190-194); `dayOfMonth` re-wraps the date
and takes the local day of month. -/
def entryOf (c : CostRecord) : ReportEntry :=
  ⟨c.sum, c.description, c.createdAt.day⟩

/-- One iteration of the grouping loop (lines 187-196): the dynamic lookup
`grouped[c.category]` is truthy for the five own keys (push succeeds) and
for `Object.prototype` properties (push throws a `TypeError`); any other
category yields `undefined`, which is falsy, and the record is skipped. -/
def Grouped.push (g : Grouped) (c : CostRecord) : Except String Grouped :=
  if c.category = "food" then .ok { g with food := g.food ++ [entryOf c] }
  else if c.category = "education" then
    .ok { g with education := g.education ++ [entryOf c] }
  else if c.category = "health" then
    .ok { g with health := g.health ++ [entryOf c] }
  else if c.category = "housing" then
    .ok { g with housing := g.housing ++ [entryOf c] }
  else if c.category = "sports" then
    .ok { g with sports := g.sports ++ [entryOf c] }
  else if objectProtoKeys.contains c.category then
    .error "grouped[c.category].push is not a function"
  else .ok g

/-- The grouping loop of `buildReport` over the whole input list. -/
def groupCosts : Grouped → List CostRecord → Except String Grouped
  | g, [] => .ok g
  | g, c :: rest =>
    match Grouped.push g c with
    | .ok g2 => groupCosts g2 rest
    | .error e => .error e

/-- The `costs` array literal returned by `buildReport` (lines 202-208):
five singleton objects in fixed order. -/
def reportCosts (g : Grouped) : List (String × List ReportEntry) :=
  [("food", g.food), ("education", g.education), ("health", g.health),
   ("housing", g.housing), ("sports", g.sports)]

/-- `buildReport(userid, year, month, costs)` (lines 167-210).  The
`Except` models the possibility that the loop throws (which in the route
handler is caught by the surrounding `try` and becomes a 500 response). -/
def buildReport (userid year month : Rat) (costs : List CostRecord) :
    Except String Report :=
  match groupCosts Grouped.empty costs with
  | .error e => .error e
  | .ok g => .ok { userid := userid, year := year, month := month,
                   costs := reportCosts g }

/-- `isPastMonth` (line 234): `(year < now.getFullYear()) || (year ===
now.getFullYear() && month < (now.getMonth() + 1))`.  `now.getMonth() + 1`
is the 1-based current month, which is `now.month` in this model. -/
def isPastMonth (year month : Rat) (now : Timestamp) : Bool :=
  decide (year < (now.year : Rat)) ||
    (decide (year = (now.year : Rat)) && decide (month < (now.month : Rat)))

/-- JavaScript `ToIntegerOrInfinity` on a finite number: truncation toward
zero, as applied by the `Date` constructor to each argument. -/
def ratTrunc (q : Rat) : Int :=
  Int.tdiv q.num (q.den : Int)

/-- The year actually used by `new Date(year, monthIndex, 1)`: a truncated
year value between 0 and 99 inclusive is interpreted as 1900 + year
(ECMA-262 `MakeFullYear`). -/
def jsYear (y : Rat) : Int :=
  let yi := ratTrunc y
  if 0 ≤ yi ∧ yi ≤ 99 then yi + 1900 else yi

/-- `new Date(year, month - 1, 1, 0, 0, 0, 0)` (line 247) for a validated
month (`1 ≤ month ≤ 12`, possibly fractional): the first instant of the
effective month. -/
def jsMonthStart (y m : Rat) : Timestamp :=
  ⟨jsYear y, (ratTrunc m).toNat, 1, 0⟩

/-- `new Date(year, month, 1, 0, 0, 0, 0)` (line 248) for a validated
month: the first instant of the following month, with the December request
normalized to January of the following year. -/
def jsMonthEnd (y m : Rat) : Timestamp :=
  let mi := (ratTrunc m).toNat
  if mi = 12 then ⟨jsYear y + 1, 1, 1, 0⟩ else ⟨jsYear y, mi + 1, 1, 0⟩

/-- The Mongo filter of the `Cost.find` call (lines 251-254):
`{ userid: userid, createdAt: { $gte: start, $lt: end } }`. -/
def costMatches (u y m : Rat) (c : CostRecord) : Bool :=
  decide (c.userid = u) && Timestamp.leb (jsMonthStart y m) c.createdAt &&
    Timestamp.ltb c.createdAt (jsMonthEnd y m)

/-- One document of the `reports` cache collection (the report cache
schema: userid, year, month, report, createdAt, with a unique compound
index on (userid, year, month)). -/
structure CacheEntry where
  userid : Rat
  year : Rat
  month : Rat
  report : Report
  createdAt : Timestamp
deriving DecidableEq

/-- `Report.findOne({ userid, year, month })` (line 238) over the cache
collection. -/
def findCache (rs : List CacheEntry) (u y m : Rat) : Option CacheEntry :=
  rs.find? fun e =>
    decide (e.userid = u) && decide (e.year = y) && decide (e.month = m)

/-- One document of the `users` collection, restricted to the field the
costs service reads (`findOne({ id: body.userid })`, line 118). -/
structure UserRec where
  id : Rat
deriving DecidableEq

/-- The document database as seen by the costs service: the `users`,
`costs` and `reports` collections. -/
structure Store where
  users : List UserRec
  costs : List CostRecord
  reports : List CacheEntry
deriving DecidableEq

/-- Outcome of the `new Report(...).save()` call: success, a duplicate-key
rejection from the unique index, or any other storage failure. -/
inductive SaveOutcome
  | ok
  | duplicate
  | unavailable
deriving DecidableEq

/-- Failure-injection oracle for the three storage round trips a single
`GET /api/report` request can make; a `true`/non-`ok` field means the
corresponding Mongoose promise rejects. -/
structure Plan where
  cacheLookupFails : Bool
  costsQueryFails : Bool
  saveOutcome : SaveOutcome
deriving DecidableEq

/-- The plan on which every storage operation succeeds. -/
def Plan.allOk : Plan := ⟨false, false, SaveOutcome.ok⟩

/-- Result of one `GET /api/report` request: a 200 JSON report, a 400
client error with its error id (20 or 21), or a 500 error from the outer
`catch` (error id 999). -/
inductive HResult
  | ok (r : Report)
  | appError (id : Nat)
  | serverError
deriving DecidableEq

/-- Count of storage round trips attempted while serving one request. -/
structure Trace where
  cacheLookups : Nat
  recordQueries : Nat
  cacheSaves : Nat
deriving DecidableEq

/-- Response, resulting database state, and access trace of one request. -/
structure HOut where
  result : HResult
  store : Store
  trace : Trace
deriving DecidableEq

/-- Lines 244-274 of the route handler: query the cost records for the
month, build the report, and, for a past month, attempt to persist it.
The inner `try { ... } catch (e) { }` around the save (lines 261-271)
swallows every save error, so neither a duplicate-key rejection nor an
unavailable store surfaces; a rejected `Cost.find` or a throwing
`buildReport` is caught by the outer `try` and becomes a 500. -/
def freshPath (st : Store) (plan : Plan) (now : Timestamp)
    (userid year month : Rat) (isPast : Bool) (lookups : Nat) : HOut :=
  if plan.costsQueryFails then ⟨.serverError, st, ⟨lookups, 1, 0⟩⟩
  else
    match buildReport userid year month
        (st.costs.filter (costMatches userid year month)) with
    | .error _ => ⟨.serverError, st, ⟨lookups, 1, 0⟩⟩
    | .ok rep =>
      if isPast then
        match plan.saveOutcome with
        | .ok =>
          ⟨.ok rep,
           { st with reports := st.reports ++ [⟨userid, year, month, rep, now⟩] },
           ⟨lookups, 1, 1⟩⟩
        | _ => ⟨.ok rep, st, ⟨lookups, 1, 1⟩⟩
      else ⟨.ok rep, st, ⟨lookups, 1, 0⟩⟩

/-- Lines 232-274: classify the period, consult the cache for a past
month, and otherwise fall through to the fresh computation. -/
def reportCore (st : Store) (plan : Plan) (now : Timestamp)
    (userid year month : Rat) : HOut :=
  let isPast := isPastMonth year month now
  if isPast then
    if plan.cacheLookupFails then ⟨.serverError, st, ⟨1, 0, 0⟩⟩
    else
      match findCache st.reports userid year month with
      | some e => ⟨.ok e.report, st, ⟨1, 0, 0⟩⟩
      | none => freshPath st plan now userid year month isPast 1
  else freshPath st plan now userid year month isPast 0

/-- The full `GET /api/report` handler (lines 218-278).  The three query
parameters are the results of `Number(...)`; `none` models `NaN`.  The
`NaN` check (line 224, error 20) and the month range check (line 228,
error 21) run before any storage access. -/
def getReportHandler (st : Store) (plan : Plan) (now : Timestamp)
    (idQ yearQ monthQ : Option Rat) : HOut :=
  match idQ, yearQ, monthQ with
  | some userid, some year, some month =>
    if month < 1 ∨ 12 < month then ⟨.appError 21, st, ⟨0, 0, 0⟩⟩
    else reportCore st plan now userid year month
  | _, _, _ => ⟨.appError 20, st, ⟨0, 0, 0⟩⟩

/-- A `POST /api/add` request body after JSON parsing, already at the
types the handler's shape checks (errors 1, 2, 4, 5, 6 of lines 97-130)
enforce; those checks are therefore elided here.  `createdAt = none`
models an absent field (server time is used). -/
structure AddBody where
  description : String
  category : String
  userid : Rat
  sum : Rat
  createdAt : Option Timestamp
deriving DecidableEq

/-- Result of one `POST /api/add` request: the echoed saved cost or a 400
client error with its error id. -/
inductive AddResult
  | ok (saved : CostRecord)
  | err (id : Nat)
deriving DecidableEq

/-- The `POST /api/add` handler (lines 93-156) on a typed body: the
category check (error 3), the user-existence check against the `users`
collection (error 8, lines 117-121), and the past-date rule (error 7,
lines 132-136), then the insert into the `costs` collection. -/
def addCost (st : Store) (now : Timestamp) (b : AddBody) :
    AddResult × Store :=
  if !(ALLOWED_CATEGORIES.contains b.category) then (.err 3, st)
  else if (st.users.find? fun usr => decide (usr.id = b.userid)).isNone then
    (.err 8, st)
  else
    let createdAt := b.createdAt.getD now
    if Timestamp.ltb createdAt now then (.err 7, st)
    else
      let c : CostRecord := ⟨b.description, b.category, b.userid, b.sum, createdAt⟩
      (.ok c, { st with costs := st.costs ++ [c] })

/-- The fixed output shape of a report: exactly the five category keys, in
the fixed display order, each mapped to a (possibly empty) list. -/
def wellShaped (r : Report) : Prop :=
  r.costs.map Prod.fst = groupedKeyOrder

instance (r : Report) : Decidable (wellShaped r) := by
  unfold wellShaped; infer_instance

/-- Sum of the `sum` fields of a bucket. -/
def sumOfEntries (l : List ReportEntry) : Rat :=
  (l.map ReportEntry.sum).sum

/-- Sum of all amounts accumulated in the five buckets. -/
def Grouped.total (g : Grouped) : Rat :=
  sumOfEntries g.food + sumOfEntries g.education + sumOfEntries g.health +
    sumOfEntries g.housing + sumOfEntries g.sports

/-- Sum of the amounts of all entries appearing anywhere in a report. -/
def reportTotal (r : Report) : Rat :=
  (r.costs.map fun p => sumOfEntries p.2).sum

/-- Two cache documents collide on the unique compound index. -/
def sameKey (a b : CacheEntry) : Prop :=
  a.userid = b.userid ∧ a.year = b.year ∧ a.month = b.month

/-- The invariant enforced by the unique index of the report cache: at
most one document per (userid, year, month). -/
def UniqueKeys (rs : List CacheEntry) : Prop :=
  rs.Pairwise fun a b => ¬ sameKey a b

/-- The first instant of the requested month as the specification words
it: written from the spec's phrase "first instant of month" for the
requested (year, month), to be compared with the `jsMonthStart` the code
computes. -/
def specMonthStart (y : Int) (m : Nat) : Timestamp :=
  ⟨y, m, 1, 0⟩

/-- The first instant of the month after the requested month as the
specification words it, with December rolling over to January of the
following year; to be compared with the `jsMonthEnd` the code computes. -/
def specMonthEnd (y : Int) (m : Nat) : Timestamp :=
  if m = 12 then ⟨y + 1, 1, 1, 0⟩ else ⟨y, m + 1, 1, 0⟩

/-! ### Helper lemmas -/

theorem reportCosts_map_fst (g : Grouped) :
    (reportCosts g).map Prod.fst = groupedKeyOrder := rfl

theorem buildReport_ok_shape {u y m : Rat} {cs : List CostRecord} {r : Report}
    (h : buildReport u y m cs = .ok r) : wellShaped r := by
  unfold buildReport at h
  split at h
  · simp at h
  · injection h with h
    subst h
    rfl

theorem groupCosts_ok_of_no_proto (cs : List CostRecord) :
    ∀ g : Grouped, (∀ c ∈ cs, objectProtoKeys.contains c.category = false) →
      ∃ g2, groupCosts g cs = .ok g2 := by
  induction cs with
  | nil => exact fun g _ => ⟨g, rfl⟩
  | cons c cs ih =>
    intro g h
    have hc := h c (List.mem_cons_self c cs)
    have hrest : ∀ x ∈ cs, objectProtoKeys.contains x.category = false :=
      fun x hx => h x (List.mem_cons_of_mem c hx)
    by_cases h1 : c.category = "food"
    · obtain ⟨g2, hg2⟩ := ih { g with food := g.food ++ [entryOf c] } hrest
      exact ⟨g2, by simp [groupCosts, Grouped.push, h1, hg2]⟩
    · by_cases h2 : c.category = "education"
      · obtain ⟨g2, hg2⟩ := ih { g with education := g.education ++ [entryOf c] } hrest
        exact ⟨g2, by simp [groupCosts, Grouped.push, h1, h2, hg2]⟩
      · by_cases h3 : c.category = "health"
        · obtain ⟨g2, hg2⟩ := ih { g with health := g.health ++ [entryOf c] } hrest
          exact ⟨g2, by simp [groupCosts, Grouped.push, h1, h2, h3, hg2]⟩
        · by_cases h4 : c.category = "housing"
          · obtain ⟨g2, hg2⟩ := ih { g with housing := g.housing ++ [entryOf c] } hrest
            exact ⟨g2, by simp [groupCosts, Grouped.push, h1, h2, h3, h4, hg2]⟩
          · by_cases h5 : c.category = "sports"
            · obtain ⟨g2, hg2⟩ := ih { g with sports := g.sports ++ [entryOf c] } hrest
              exact ⟨g2, by simp [groupCosts, Grouped.push, h1, h2, h3, h4, h5, hg2]⟩
            · obtain ⟨g2, hg2⟩ := ih g hrest
              have hc' : c.category ∉ objectProtoKeys := by simpa using hc
              exact ⟨g2, by simp [groupCosts, Grouped.push, h1, h2, h3, h4, h5, hc', hg2]⟩

theorem buildReport_ok_of_no_proto {u y m : Rat} {cs : List CostRecord}
    (h : ∀ c ∈ cs, objectProtoKeys.contains c.category = false) :
    ∃ r, buildReport u y m cs = .ok r := by
  obtain ⟨g2, hg2⟩ := groupCosts_ok_of_no_proto cs Grouped.empty h
  refine ⟨{ userid := u, year := y, month := m, costs := reportCosts g2 }, ?_⟩
  simp [buildReport, hg2]

theorem groupCosts_total (cs : List CostRecord) :
    ∀ g g2 : Grouped, groupCosts g cs = .ok g2 →
      g2.total = g.total
        + ((cs.filter fun c => ALLOWED_CATEGORIES.contains c.category).map
            CostRecord.sum).sum := by
  induction cs with
  | nil =>
    intro g g2 h
    injection h with h
    subst h
    simp
  | cons c cs ih =>
    intro g g2 h
    by_cases h1 : c.category = "food"
    · have h' : groupCosts { g with food := g.food ++ [entryOf c] } cs = .ok g2 := by
        simpa [groupCosts, Grouped.push, h1] using h
      rw [ih _ _ h']
      simp [Grouped.total, sumOfEntries, entryOf, List.filter_cons, ALLOWED_CATEGORIES, h1]
      ring
    · by_cases h2 : c.category = "education"
      · have h' : groupCosts { g with education := g.education ++ [entryOf c] } cs = .ok g2 := by
          simpa [groupCosts, Grouped.push, h1, h2] using h
        rw [ih _ _ h']
        simp [Grouped.total, sumOfEntries, entryOf, List.filter_cons, ALLOWED_CATEGORIES, h1, h2]
        ring
      · by_cases h3 : c.category = "health"
        · have h' : groupCosts { g with health := g.health ++ [entryOf c] } cs = .ok g2 := by
            simpa [groupCosts, Grouped.push, h1, h2, h3] using h
          rw [ih _ _ h']
          simp [Grouped.total, sumOfEntries, entryOf, List.filter_cons, ALLOWED_CATEGORIES,
            h1, h2, h3]
          ring
        · by_cases h4 : c.category = "housing"
          · have h' : groupCosts { g with housing := g.housing ++ [entryOf c] } cs = .ok g2 := by
              simpa [groupCosts, Grouped.push, h1, h2, h3, h4] using h
            rw [ih _ _ h']
            simp [Grouped.total, sumOfEntries, entryOf, List.filter_cons, ALLOWED_CATEGORIES,
              h1, h2, h3, h4]
            ring
          · by_cases h5 : c.category = "sports"
            · have h' : groupCosts { g with sports := g.sports ++ [entryOf c] } cs = .ok g2 := by
                simpa [groupCosts, Grouped.push, h1, h2, h3, h4, h5] using h
              rw [ih _ _ h']
              simp [Grouped.total, sumOfEntries, entryOf, List.filter_cons, ALLOWED_CATEGORIES,
                h1, h2, h3, h4, h5]
              ring
            · by_cases hp : c.category ∈ objectProtoKeys
              · exfalso
                simp [groupCosts, Grouped.push, h1, h2, h3, h4, h5, hp] at h
              · have h' : groupCosts g cs = .ok g2 := by
                  simpa [groupCosts, Grouped.push, h1, h2, h3, h4, h5, hp] using h
                rw [ih _ _ h']
                have hk : c.category ∉ ALLOWED_CATEGORIES := by
                  simp [ALLOWED_CATEGORIES, h1, h2, h3, h4, h5]
                simp [List.filter_cons, hk]

theorem buildReport_total {u y m : Rat} {cs : List CostRecord} {r : Report}
    (h : buildReport u y m cs = .ok r) :
    reportTotal r
      = ((cs.filter fun c => ALLOWED_CATEGORIES.contains c.category).map
          CostRecord.sum).sum := by
  unfold buildReport at h
  split at h
  · simp at h
  · rename_i g hg
    injection h with h
    subst h
    have ht := groupCosts_total cs Grouped.empty g hg
    have h0 : Grouped.empty.total = 0 := by
      simp [Grouped.total, sumOfEntries, Grouped.empty]
    rw [h0, zero_add] at ht
    have hr : reportTotal { userid := u, year := y, month := m, costs := reportCosts g }
        = Grouped.total g := by
      simp only [reportTotal, reportCosts, List.map_cons, List.map_nil, List.sum_cons,
        List.sum_nil, Grouped.total]
      ring
    rw [hr, ht]

theorem findCache_eq_none {rs : List CacheEntry} {u y m : Rat}
    (h : findCache rs u y m = none) :
    ∀ e ∈ rs, ¬ (e.userid = u ∧ e.year = y ∧ e.month = m) := by
  intro e he
  have := List.find?_eq_none.mp h e he
  simpa [and_assoc] using this

theorem findCache_append {rs : List CacheEntry} {u y m : Rat} {e : CacheEntry}
    (h : findCache rs u y m = none) (h1 : e.userid = u) (h2 : e.year = y)
    (h3 : e.month = m) :
    findCache (rs ++ [e]) u y m = some e := by
  unfold findCache at h ⊢
  rw [List.find?_append, h]
  simp [List.find?_cons, h1, h2, h3]

theorem handler_some_eq (st : Store) (plan : Plan) (now : Timestamp) (u y m : Rat) :
    getReportHandler st plan now (some u) (some y) (some m)
      = if m < 1 ∨ 12 < m then ⟨.appError 21, st, ⟨0, 0, 0⟩⟩
        else reportCore st plan now u y m := rfl

theorem freshPath_cases (st : Store) (plan : Plan) (now : Timestamp)
    (u y m : Rat) (p : Bool) (l : Nat) :
    (plan.costsQueryFails = true
      ∧ freshPath st plan now u y m p l = ⟨.serverError, st, ⟨l, 1, 0⟩⟩)
    ∨ (plan.costsQueryFails = false
      ∧ ((∃ msg, buildReport u y m (st.costs.filter (costMatches u y m)) = .error msg
            ∧ freshPath st plan now u y m p l = ⟨.serverError, st, ⟨l, 1, 0⟩⟩)
        ∨ ∃ rep, buildReport u y m (st.costs.filter (costMatches u y m)) = .ok rep
            ∧ ((p = true ∧ plan.saveOutcome = SaveOutcome.ok
                  ∧ freshPath st plan now u y m p l
                    = ⟨.ok rep,
                       { st with reports := st.reports ++ [⟨u, y, m, rep, now⟩] },
                       ⟨l, 1, 1⟩⟩)
              ∨ (p = true ∧ plan.saveOutcome ≠ SaveOutcome.ok
                  ∧ freshPath st plan now u y m p l = ⟨.ok rep, st, ⟨l, 1, 1⟩⟩)
              ∨ (p = false
                  ∧ freshPath st plan now u y m p l = ⟨.ok rep, st, ⟨l, 1, 0⟩⟩)))) := by
  cases hq : plan.costsQueryFails
  case true =>
    left
    exact ⟨rfl, by simp [freshPath, hq]⟩
  case false =>
    right
    refine ⟨rfl, ?_⟩
    cases hb : buildReport u y m (st.costs.filter (costMatches u y m)) with
    | error msg =>
      left
      exact ⟨msg, rfl, by simp [freshPath, hq, hb]⟩
    | ok rep =>
      right
      refine ⟨rep, rfl, ?_⟩
      cases p
      case false =>
        right; right
        exact ⟨rfl, by simp [freshPath, hq, hb]⟩
      case true =>
        cases hs : plan.saveOutcome
        case ok =>
          left
          exact ⟨rfl, rfl, by simp [freshPath, hq, hb, hs]⟩
        case duplicate =>
          right; left
          exact ⟨rfl, by simp, by simp [freshPath, hq, hb, hs]⟩
        case unavailable =>
          right; left
          exact ⟨rfl, by simp, by simp [freshPath, hq, hb, hs]⟩

theorem reportCore_cases (st : Store) (plan : Plan) (now : Timestamp) (u y m : Rat) :
    (isPastMonth y m now = true ∧ plan.cacheLookupFails = true
      ∧ reportCore st plan now u y m = ⟨.serverError, st, ⟨1, 0, 0⟩⟩)
    ∨ (isPastMonth y m now = true ∧ plan.cacheLookupFails = false
      ∧ ∃ e, findCache st.reports u y m = some e
          ∧ reportCore st plan now u y m = ⟨.ok e.report, st, ⟨1, 0, 0⟩⟩)
    ∨ (isPastMonth y m now = true ∧ plan.cacheLookupFails = false
      ∧ findCache st.reports u y m = none
      ∧ reportCore st plan now u y m = freshPath st plan now u y m true 1)
    ∨ (isPastMonth y m now = false
      ∧ reportCore st plan now u y m = freshPath st plan now u y m false 0) := by
  cases hp : isPastMonth y m now
  case false =>
    right; right; right
    exact ⟨rfl, by simp [reportCore, hp]⟩
  case true =>
    cases hl : plan.cacheLookupFails
    case true =>
      left
      exact ⟨rfl, rfl, by simp [reportCore, hp, hl]⟩
    case false =>
      cases hf : findCache st.reports u y m with
      | some e =>
        right; left
        exact ⟨rfl, rfl, e, rfl, by simp [reportCore, hp, hl, hf]⟩
      | none =>
        right; right; left
        exact ⟨rfl, rfl, rfl, by simp [reportCore, hp, hl, hf]⟩

theorem findCache_mem {rs : List CacheEntry} {u y m : Rat} {e : CacheEntry}
    (h : findCache rs u y m = some e) : e ∈ rs :=
  List.mem_of_find?_eq_some h

theorem freshPath_shape (st : Store) (plan : Plan) (now : Timestamp)
    (u y m : Rat) (p : Bool) (l : Nat)
    (hinv : ∀ e ∈ st.reports, wellShaped e.report) :
    (∀ r, (freshPath st plan now u y m p l).result = .ok r → wellShaped r)
    ∧ (∀ e ∈ (freshPath st plan now u y m p l).store.reports,
        wellShaped e.report) := by
  rcases freshPath_cases st plan now u y m p l with
    ⟨_, hfp⟩ | ⟨_, ⟨msg, _, hfp⟩ | ⟨rep, hb, hcase⟩⟩
  · rw [hfp]
    exact ⟨fun r hr => absurd hr (by simp), hinv⟩
  · rw [hfp]
    exact ⟨fun r hr => absurd hr (by simp), hinv⟩
  · rcases hcase with ⟨_, _, hfp⟩ | ⟨_, _, hfp⟩ | ⟨_, hfp⟩
    · rw [hfp]
      refine ⟨fun r hr => ?_, fun e he => ?_⟩
      · injection hr with hr
        subst hr
        exact buildReport_ok_shape hb
      · simp only [List.mem_append, List.mem_singleton] at he
        rcases he with he | he
        · exact hinv e he
        · subst he
          exact buildReport_ok_shape hb
    · rw [hfp]
      refine ⟨fun r hr => ?_, hinv⟩
      injection hr with hr
      subst hr
      exact buildReport_ok_shape hb
    · rw [hfp]
      refine ⟨fun r hr => ?_, hinv⟩
      injection hr with hr
      subst hr
      exact buildReport_ok_shape hb

theorem reportCore_shape (st : Store) (plan : Plan) (now : Timestamp)
    (u y m : Rat)
    (hinv : ∀ e ∈ st.reports, wellShaped e.report) :
    (∀ r, (reportCore st plan now u y m).result = .ok r → wellShaped r)
    ∧ (∀ e ∈ (reportCore st plan now u y m).store.reports,
        wellShaped e.report) := by
  rcases reportCore_cases st plan now u y m with
    ⟨_, _, hc⟩ | ⟨_, _, e, hf, hc⟩ | ⟨_, _, hf, hc⟩ | ⟨_, hc⟩
  · rw [hc]
    exact ⟨fun r hr => absurd hr (by simp), hinv⟩
  · rw [hc]
    refine ⟨fun r hr => ?_, hinv⟩
    injection hr with hr
    subst hr
    exact hinv e (findCache_mem hf)
  · rw [hc]
    exact freshPath_shape st plan now u y m true 1 hinv
  · rw [hc]
    exact freshPath_shape st plan now u y m false 0 hinv

/-! ### Claims -/

/-- Claim C1: a request's period is classified as closed exactly when
(year < currentYear) or (year = currentYear and month < currentMonth),
against the server clock at request time; the current month itself is
always open, and a request for the current month never touches the report
cache (no lookup, no save, cache collection unchanged), on every plan and
state. -/
theorem C1_period_classification :
    (∀ (year month : Rat) (now : Timestamp),
      isPastMonth year month now
        = decide (year < (now.year : Rat)
            ∨ (year = (now.year : Rat) ∧ month < (now.month : Rat))))
    ∧ (∀ now : Timestamp,
        isPastMonth (now.year : Rat) (now.month : Rat) now = false)
    ∧ (∀ (st : Store) (plan : Plan) (now : Timestamp) (u : Rat),
        (getReportHandler st plan now (some u) (some (now.year : Rat))
            (some (now.month : Rat))).store.reports = st.reports
        ∧ (getReportHandler st plan now (some u) (some (now.year : Rat))
            (some (now.month : Rat))).trace.cacheLookups = 0
        ∧ (getReportHandler st plan now (some u) (some (now.year : Rat))
            (some (now.month : Rat))).trace.cacheSaves = 0) := by
  refine ⟨?_, ?_, ?_⟩
  · intro year month now
    simp [isPastMonth, Bool.decide_or, Bool.decide_and]
  · intro now
    simp [isPastMonth]
  · intro st plan now u
    have hfalse : isPastMonth (now.year : Rat) (now.month : Rat) now = false := by
      simp [isPastMonth]
    by_cases hm : (now.month : Rat) < 1 ∨ 12 < (now.month : Rat)
    · rw [handler_some_eq, if_pos hm]
      exact ⟨rfl, rfl, rfl⟩
    · rw [handler_some_eq, if_neg hm]
      rcases reportCore_cases st plan now u (now.year : Rat) (now.month : Rat) with
        ⟨hp, _, _⟩ | ⟨hp, _, _⟩ | ⟨hp, _, _⟩ | ⟨_, hc⟩
      · rw [hfalse] at hp; cases hp
      · rw [hfalse] at hp; cases hp
      · rw [hfalse] at hp; cases hp
      · rw [hc]
        rcases freshPath_cases st plan now u (now.year : Rat) (now.month : Rat) false 0 with
          ⟨_, hfp⟩ | ⟨_, ⟨msg, _, hfp⟩ | ⟨rep, hb, hcase⟩⟩
        · rw [hfp]; exact ⟨rfl, rfl, rfl⟩
        · rw [hfp]; exact ⟨rfl, rfl, rfl⟩
        · rcases hcase with ⟨hpt, _, _⟩ | ⟨hpt, _, _⟩ | ⟨_, hfp⟩
          · cases hpt
          · cases hpt
          · rw [hfp]; exact ⟨rfl, rfl, rfl⟩

/-- Claim C2: a freshly built report always carries exactly the five
category keys [food, education, health, housing, sports] in that order,
each mapped to a (possibly empty) list; and on every path of the handler
(fresh build or cache hit), assuming every already-cached report was built
by the builder (which the cache-population path below re-establishes), the
returned report has that exact shape. -/
theorem C2_report_shape (st : Store) (plan : Plan) (now : Timestamp)
    (idQ yearQ monthQ : Option Rat)
    (hinv : ∀ e ∈ st.reports, wellShaped e.report) :
    (∀ (u2 y2 m2 : Rat) (cs : List CostRecord) (r : Report),
        buildReport u2 y2 m2 cs = .ok r → wellShaped r)
    ∧ (∀ r, (getReportHandler st plan now idQ yearQ monthQ).result = .ok r →
        wellShaped r)
    ∧ (∀ e ∈ (getReportHandler st plan now idQ yearQ monthQ).store.reports,
        wellShaped e.report) := by
  refine ⟨fun u2 y2 m2 cs r h => buildReport_ok_shape h, ?_⟩
  rcases idQ with _ | u
  · exact ⟨fun r hr => absurd hr (by simp [getReportHandler]), by
      simp only [getReportHandler]
      exact hinv⟩
  rcases yearQ with _ | y
  · exact ⟨fun r hr => absurd hr (by simp [getReportHandler]), by
      simp only [getReportHandler]
      exact hinv⟩
  rcases monthQ with _ | m
  · exact ⟨fun r hr => absurd hr (by simp [getReportHandler]), by
      simp only [getReportHandler]
      exact hinv⟩
  by_cases hm : m < 1 ∨ 12 < m
  · rw [handler_some_eq, if_pos hm]
    exact ⟨fun r hr => absurd hr (by simp), hinv⟩
  · rw [handler_some_eq, if_neg hm]
    exact reportCore_shape st plan now u y m hinv

/-- Claim C2 witness: on the empty database the handler returns a report,
and it has the five fixed keys in order. -/
theorem C2_report_shape_witness :
    wellShaped
      { userid := 123123, year := 2025, month := 3,
        costs := reportCosts Grouped.empty } :=
  (C2_report_shape ⟨[], [], []⟩ Plan.allOk ⟨2026, 10, 12, 0⟩
      (some 123123) (some 2025) (some 3) (by simp)).2.1
    { userid := 123123, year := 2025, month := 3,
      costs := reportCosts Grouped.empty } (by decide)

/-- Claim C5: for any input collection on which the builder succeeds, the
sum of amounts over all entries of the built report equals the sum of
amounts over exactly those input rows whose category is one of the five
known values; unknown categories contribute nothing. -/
theorem C5_sum_preservation (u y m : Rat) (cs : List CostRecord) (r : Report)
    (h : buildReport u y m cs = .ok r) :
    reportTotal r
      = ((cs.filter fun c => ALLOWED_CATEGORIES.contains c.category).map
          CostRecord.sum).sum :=
  buildReport_total h

/-- Claim C5 witness: three known-category rows (12.5 + 40 + 7) and one
unknown-category row (99, excluded) give a report totalling 59.5. -/
theorem C5_sum_preservation_witness :
    reportTotal
        { userid := 123123, year := 2025, month := 3,
          costs :=
            [("food", [⟨mkRat 25 2, "a", 5⟩, ⟨7, "c", 20⟩]),
             ("education", [⟨40, "b", 10⟩]),
             ("health", []), ("housing", []), ("sports", [])] }
      = (([⟨"a", "food", 123123, mkRat 25 2, ⟨2025, 3, 5, 0⟩⟩,
           ⟨"b", "education", 123123, 40, ⟨2025, 3, 10, 0⟩⟩,
           ⟨"z", "misc", 123123, 99, ⟨2025, 3, 3, 0⟩⟩,
           ⟨"c", "food", 123123, 7, ⟨2025, 3, 20, 0⟩⟩].filter
            fun c => ALLOWED_CATEGORIES.contains c.category).map
          CostRecord.sum).sum :=
  C5_sum_preservation 123123 2025 3
    [⟨"a", "food", 123123, mkRat 25 2, ⟨2025, 3, 5, 0⟩⟩,
     ⟨"b", "education", 123123, 40, ⟨2025, 3, 10, 0⟩⟩,
     ⟨"z", "misc", 123123, 99, ⟨2025, 3, 3, 0⟩⟩,
     ⟨"c", "food", 123123, 7, ⟨2025, 3, 20, 0⟩⟩]
    { userid := 123123, year := 2025, month := 3,
      costs :=
        [("food", [⟨mkRat 25 2, "a", 5⟩, ⟨7, "c", 20⟩]),
         ("education", [⟨40, "b", 10⟩]),
         ("health", []), ("housing", []), ("sports", [])] } (by rfl)

/-- Claim C6 (failing input): the claim says a record whose category is
not one of the five known categories is skipped without making the builder
fail, but for a category naming an `Object.prototype` property — here
"constructor", which is not an allowed category — the truthiness guard
`if (grouped[c.category])` passes and `.push` throws, so the builder
fails and the request that reaches it is answered with a 500 instead of a
report. -/
theorem C6_unknown_category_throws :
    buildReport 1 2025 3 [⟨"d", "constructor", 1, 5, ⟨2025, 3, 10, 0⟩⟩]
      = .error "grouped[c.category].push is not a function"
    ∧ ALLOWED_CATEGORIES.contains "constructor" = false
    ∧ (getReportHandler ⟨[], [⟨"d", "constructor", 1, 5, ⟨2025, 3, 10, 0⟩⟩], []⟩
        Plan.allOk ⟨2026, 10, 12, 0⟩ (some 1) (some 2025) (some 3)).result
      = .serverError :=
  ⟨by rfl, by decide, by decide⟩

/-- Claim C3: for a closed period whose report is cached, the handler
returns the cached report immediately, unchanged state, no record-store
query; and calling the handler twice in succession for a closed period
returns the same report both times, the second call being a pure cache
hit (one cache lookup, zero record queries, state unchanged). -/
theorem C3_cache_idempotence (st : Store) (now : Timestamp) (u y m : Rat)
    (hpast : isPastMonth y m now = true)
    (hm : ¬(m < 1 ∨ 12 < m)) :
    (∀ e, findCache st.reports u y m = some e →
      getReportHandler st Plan.allOk now (some u) (some y) (some m)
        = ⟨.ok e.report, st, ⟨1, 0, 0⟩⟩)
    ∧ (∀ r,
        (getReportHandler st Plan.allOk now (some u) (some y) (some m)).result
          = .ok r →
        getReportHandler
            (getReportHandler st Plan.allOk now (some u) (some y) (some m)).store
            Plan.allOk now (some u) (some y) (some m)
          = ⟨.ok r,
             (getReportHandler st Plan.allOk now (some u) (some y) (some m)).store,
             ⟨1, 0, 0⟩⟩) := by
  have hsome : ∀ (st' : Store) (e : CacheEntry),
      findCache st'.reports u y m = some e →
      getReportHandler st' Plan.allOk now (some u) (some y) (some m)
        = ⟨.ok e.report, st', ⟨1, 0, 0⟩⟩ := by
    intro st' e hf
    rw [handler_some_eq, if_neg hm]
    simp [reportCore, hpast, Plan.allOk, hf]
  refine ⟨hsome st, ?_⟩
  intro r hr
  cases hf : findCache st.reports u y m with
  | some e =>
    have h1 := hsome st e hf
    rw [h1] at hr ⊢
    have hr2 : HResult.ok e.report = .ok r := hr
    injection hr2 with hr3
    subst hr3
    exact hsome st e hf
  | none =>
    have hfresh : reportCore st Plan.allOk now u y m
        = freshPath st Plan.allOk now u y m true 1 := by
      simp [reportCore, hpast, Plan.allOk, hf]
    have h1 : getReportHandler st Plan.allOk now (some u) (some y) (some m)
        = freshPath st Plan.allOk now u y m true 1 := by
      rw [handler_some_eq, if_neg hm, hfresh]
    rcases freshPath_cases st Plan.allOk now u y m true 1 with
      ⟨hq, hfp⟩ | ⟨_, ⟨msg, hb, hfp⟩ | ⟨rep, hb, hcase⟩⟩
    · simp [Plan.allOk] at hq
    · rw [h1, hfp] at hr
      exact absurd hr (by simp)
    · rcases hcase with ⟨_, hso, hfp⟩ | ⟨_, hso, hfp⟩ | ⟨hp2, _⟩
      · rw [h1, hfp] at hr
        have hr2 : HResult.ok rep = .ok r := hr
        injection hr2 with hr3
        subst hr3
        rw [h1, hfp]
        exact hsome _ ⟨u, y, m, rep, now⟩ (findCache_append hf rfl rfl rfl)
      · exact absurd rfl hso
      · simp at hp2

/-- Claim C3 witness: on a store holding exactly one cached report for
user 123123, March 2025, a request for that closed period is a pure cache
hit. -/
theorem C3_cache_idempotence_witness :
    getReportHandler
        ⟨[], [],
         [⟨123123, 2025, 3,
           { userid := 123123, year := 2025, month := 3,
             costs := reportCosts Grouped.empty },
           ⟨2026, 1, 1, 0⟩⟩]⟩
        Plan.allOk ⟨2026, 10, 12, 0⟩ (some 123123) (some 2025) (some 3)
      = ⟨.ok { userid := 123123, year := 2025, month := 3,
               costs := reportCosts Grouped.empty },
         ⟨[], [],
          [⟨123123, 2025, 3,
            { userid := 123123, year := 2025, month := 3,
              costs := reportCosts Grouped.empty },
            ⟨2026, 1, 1, 0⟩⟩]⟩,
         ⟨1, 0, 0⟩⟩ :=
  (C3_cache_idempotence
      ⟨[], [],
       [⟨123123, 2025, 3,
         { userid := 123123, year := 2025, month := 3,
           costs := reportCosts Grouped.empty },
         ⟨2026, 1, 1, 0⟩⟩]⟩
      ⟨2026, 10, 12, 0⟩ 123123 2025 3 (by decide) (by decide)).1
    ⟨123123, 2025, 3,
     { userid := 123123, year := 2025, month := 3,
       costs := reportCosts Grouped.empty },
     ⟨2026, 1, 1, 0⟩⟩ (by decide)

/-- Claim C4 (counterexample): for a closed period with an empty cache,
injecting a non-duplicate failure (store unavailable) into the cache-write
step still yields a 200 response with the fresh report — the inner
`catch (e) {}` around the save swallows every error, not only duplicate
keys — contradicting the claim that data-store unavailability during the
cache write is reported as a fatal error with no report returned. -/
theorem C4_counterexample :
    (⟨false, false, SaveOutcome.unavailable⟩ : Plan).saveOutcome
        ≠ SaveOutcome.duplicate
    ∧ isPastMonth 2025 3 ⟨2026, 10, 12, 0⟩ = true
    ∧ (getReportHandler ⟨[], [], []⟩ ⟨false, false, SaveOutcome.unavailable⟩
        ⟨2026, 10, 12, 0⟩ (some 123123) (some 2025) (some 3)).trace.cacheSaves = 1
    ∧ (getReportHandler ⟨[], [], []⟩ ⟨false, false, SaveOutcome.unavailable⟩
        ⟨2026, 10, 12, 0⟩ (some 123123) (some 2025) (some 3)).result
      = .ok { userid := 123123, year := 2025, month := 3,
              costs := reportCosts Grouped.empty }
    ∧ (getReportHandler ⟨[], [], []⟩ ⟨false, false, SaveOutcome.unavailable⟩
        ⟨2026, 10, 12, 0⟩ (some 123123) (some 2025) (some 3)).result
      ≠ .serverError := by
  decide

/-- Claim C4 (amended): a storage failure is surfaced iff the cache lookup
or the record query fails; every failure of the cache write — duplicate
key or store unavailability alike — is swallowed and the freshly built
report is still returned. -/
theorem C4_failure_semantics (st : Store) (plan : Plan) (now : Timestamp)
    (u y m : Rat) (hm : ¬(m < 1 ∨ 12 < m))
    (hcats : ∀ c ∈ st.costs, objectProtoKeys.contains c.category = false) :
    ((getReportHandler st plan now (some u) (some y) (some m)).result
        = .serverError
      ↔ ((isPastMonth y m now = true ∧ plan.cacheLookupFails = true)
        ∨ ((isPastMonth y m now = false
            ∨ (plan.cacheLookupFails = false
                ∧ findCache st.reports u y m = none))
          ∧ plan.costsQueryFails = true)))
    ∧ (∀ rep,
        buildReport u y m (st.costs.filter (costMatches u y m)) = .ok rep →
        isPastMonth y m now = true →
        findCache st.reports u y m = none →
        ∀ o : SaveOutcome,
          (getReportHandler st ⟨false, false, o⟩ now
              (some u) (some y) (some m)).result = .ok rep) := by
  have hbuild : ∃ rep,
      buildReport u y m (st.costs.filter (costMatches u y m)) = .ok rep :=
    buildReport_ok_of_no_proto
      (fun c hc => hcats c (List.mem_of_mem_filter hc))
  constructor
  · rw [handler_some_eq, if_neg hm]
    rcases reportCore_cases st plan now u y m with
      ⟨hp, hl, hc⟩ | ⟨hp, hl, e, hf, hc⟩ | ⟨hp, hl, hf, hc⟩ | ⟨hp, hc⟩
    · rw [hc]
      simp [hp, hl]
    · rw [hc]
      simp [hp, hl, hf]
    · rw [hc]
      rcases freshPath_cases st plan now u y m true 1 with
        ⟨hq, hfp⟩ | ⟨hq, ⟨msg, hb, hfp⟩ | ⟨rep, hb, hcase⟩⟩
      · rw [hfp]
        simp [hp, hl, hf, hq]
      · obtain ⟨rep, hrep⟩ := hbuild
        rw [hrep] at hb
        cases hb
      · rcases hcase with ⟨_, _, hfp⟩ | ⟨_, _, hfp⟩ | ⟨hp2, _⟩
        · rw [hfp]
          simp [hp, hl, hf, hq]
        · rw [hfp]
          simp [hp, hl, hf, hq]
        · simp at hp2
    · rw [hc]
      rcases freshPath_cases st plan now u y m false 0 with
        ⟨hq, hfp⟩ | ⟨hq, ⟨msg, hb, hfp⟩ | ⟨rep, hb, hcase⟩⟩
      · rw [hfp]
        simp [hp, hq]
      · obtain ⟨rep, hrep⟩ := hbuild
        rw [hrep] at hb
        cases hb
      · rcases hcase with ⟨hp2, _, _⟩ | ⟨hp2, _, _⟩ | ⟨_, hfp⟩
        · simp at hp2
        · simp at hp2
        · rw [hfp]
          simp [hp, hq]
  · intro rep hb hp hf o
    rw [handler_some_eq, if_neg hm]
    cases o <;> simp [reportCore, freshPath, hp, hf, hb]

/-- Claim C4 witness: with the cache lookup failing (store unreachable)
on a closed period, the request fails with a 500. -/
theorem C4_failure_semantics_witness :
    (getReportHandler ⟨[], [], []⟩ ⟨true, false, SaveOutcome.ok⟩
        ⟨2026, 10, 12, 0⟩ (some 123123) (some 2025) (some 3)).result
      = .serverError :=
  (C4_failure_semantics ⟨[], [], []⟩ ⟨true, false, SaveOutcome.ok⟩
      ⟨2026, 10, 12, 0⟩ 123123 2025 3 (by decide) (by simp)).1.mpr
    (Or.inl ⟨by decide, rfl⟩)

theorem freshPath_no_clientError (st : Store) (plan : Plan) (now : Timestamp)
    (u y m : Rat) (p : Bool) (l n : Nat) :
    (freshPath st plan now u y m p l).result ≠ .appError n := by
  rcases freshPath_cases st plan now u y m p l with
    ⟨_, hfp⟩ | ⟨_, ⟨msg, _, hfp⟩ | ⟨rep, _, hcase⟩⟩
  · rw [hfp]; simp
  · rw [hfp]; simp
  · rcases hcase with ⟨_, _, hfp⟩ | ⟨_, _, hfp⟩ | ⟨_, hfp⟩ <;> rw [hfp] <;> simp

theorem reportCore_no_clientError (st : Store) (plan : Plan) (now : Timestamp)
    (u y m : Rat) (n : Nat) :
    (reportCore st plan now u y m).result ≠ .appError n := by
  rcases reportCore_cases st plan now u y m with
    ⟨_, _, hc⟩ | ⟨_, _, e, _, hc⟩ | ⟨_, _, _, hc⟩ | ⟨_, hc⟩
  · rw [hc]; simp
  · rw [hc]; simp
  · rw [hc]; exact freshPath_no_clientError st plan now u y m true 1 n
  · rw [hc]; exact freshPath_no_clientError st plan now u y m false 0 n

/-- Claim C7: the report cache is append-only with at most one document
per (userid, year, month): a request preserves key-uniqueness, changes the
cache only by appending a single entry keyed by the requested closed
period on a miss, and never rewrites an existing entry — so after a
closed period is cached, adding a new cost record to that period and
asking again still returns the originally cached report. -/
theorem C7_cache_permanence (st : Store) (plan : Plan) (now : Timestamp)
    (idQ yearQ monthQ : Option Rat) :
    (UniqueKeys st.reports →
      UniqueKeys (getReportHandler st plan now idQ yearQ monthQ).store.reports)
    ∧ ((getReportHandler st plan now idQ yearQ monthQ).store.reports
          = st.reports
      ∨ ∃ u y m rep, idQ = some u ∧ yearQ = some y ∧ monthQ = some m
          ∧ isPastMonth y m now = true
          ∧ findCache st.reports u y m = none
          ∧ (getReportHandler st plan now idQ yearQ monthQ).store.reports
              = st.reports ++ [⟨u, y, m, rep, now⟩])
    ∧ (∀ (u y m : Rat) (e : CacheEntry) (c : CostRecord),
        idQ = some u → yearQ = some y → monthQ = some m →
        ¬(m < 1 ∨ 12 < m) → plan.cacheLookupFails = false →
        isPastMonth y m now = true →
        findCache st.reports u y m = some e →
        (getReportHandler { st with costs := c :: st.costs } plan now
            idQ yearQ monthQ).result = .ok e.report) := by
  have hrep : (getReportHandler st plan now idQ yearQ monthQ).store.reports
        = st.reports
      ∨ ∃ u y m rep, idQ = some u ∧ yearQ = some y ∧ monthQ = some m
          ∧ isPastMonth y m now = true
          ∧ findCache st.reports u y m = none
          ∧ (getReportHandler st plan now idQ yearQ monthQ).store.reports
              = st.reports ++ [⟨u, y, m, rep, now⟩] := by
    rcases idQ with _ | u
    · left; simp [getReportHandler]
    rcases yearQ with _ | y
    · left; simp [getReportHandler]
    rcases monthQ with _ | m
    · left; simp [getReportHandler]
    by_cases hm : m < 1 ∨ 12 < m
    · left; rw [handler_some_eq, if_pos hm]
    · rw [handler_some_eq, if_neg hm]
      rcases reportCore_cases st plan now u y m with
        ⟨hp, hl, hc⟩ | ⟨hp, hl, e, hf, hc⟩ | ⟨hp, hl, hf, hc⟩ | ⟨hp, hc⟩
      · left; rw [hc]
      · left; rw [hc]
      · rw [hc]
        rcases freshPath_cases st plan now u y m true 1 with
          ⟨_, hfp⟩ | ⟨_, ⟨msg, _, hfp⟩ | ⟨rep, hb, hcase⟩⟩
        · left; rw [hfp]
        · left; rw [hfp]
        · rcases hcase with ⟨_, _, hfp⟩ | ⟨_, _, hfp⟩ | ⟨hpt, _⟩
          · right; exact ⟨u, y, m, rep, rfl, rfl, rfl, hp, hf, by rw [hfp]⟩
          · left; rw [hfp]
          · simp at hpt
      · rw [hc]
        rcases freshPath_cases st plan now u y m false 0 with
          ⟨_, hfp⟩ | ⟨_, ⟨msg, _, hfp⟩ | ⟨rep, hb, hcase⟩⟩
        · left; rw [hfp]
        · left; rw [hfp]
        · rcases hcase with ⟨hpt, _, _⟩ | ⟨hpt, _, _⟩ | ⟨_, hfp⟩
          · simp at hpt
          · simp at hpt
          · left; rw [hfp]
  refine ⟨?_, hrep, ?_⟩
  · intro hu
    rcases hrep with heq | ⟨u, y, m, rep, _, _, _, _, hf, heq⟩
    · rw [heq]; exact hu
    · rw [heq]
      rw [UniqueKeys, List.pairwise_append]
      refine ⟨hu, List.pairwise_singleton _ _, ?_⟩
      intro a ha b hb
      simp only [List.mem_singleton] at hb
      subst hb
      intro hk
      exact findCache_eq_none hf a ha ⟨hk.1, hk.2.1, hk.2.2⟩
  · intro u y m e c hiu hiy him hm hl hp hf
    subst hiu; subst hiy; subst him
    rw [handler_some_eq, if_neg hm]
    simp [reportCore, hp, hl, hf]

/-- Claim C7 witness: starting from the empty database, a request leaves
the cache with unique keys. -/
theorem C7_cache_permanence_witness :
    UniqueKeys (getReportHandler ⟨[], [], []⟩ Plan.allOk ⟨2026, 10, 12, 0⟩
        (some 123123) (some 2025) (some 3)).store.reports :=
  (C7_cache_permanence ⟨[], [], []⟩ Plan.allOk ⟨2026, 10, 12, 0⟩
      (some 123123) (some 2025) (some 3)).1 List.Pairwise.nil

/-- Claim C8 (counterexample): the handler validates only that the three
query parameters are numbers (not NaN), not that they are integers: the
non-integer year 2025.5 (here `mkRat 4051 2`) passes validation and the
request proceeds to storage (one record query) and returns a report,
instead of failing with InvalidInput as the claim requires for a value
that is not a well-formed integer. -/
theorem C8_counterexample :
    (mkRat 4051 2).den ≠ 1
    ∧ (getReportHandler ⟨[], [], []⟩ Plan.allOk ⟨2026, 10, 12, 0⟩
        (some 123123) (some (mkRat 4051 2)) (some 3)).result
      = .ok { userid := 123123, year := mkRat 4051 2, month := 3,
              costs := reportCosts Grouped.empty }
    ∧ (getReportHandler ⟨[], [], []⟩ Plan.allOk ⟨2026, 10, 12, 0⟩
        (some 123123) (some (mkRat 4051 2)) (some 3)).trace.recordQueries
      = 1 := by
  decide

/-- Claim C8 (amended): before any storage access the handler rejects with
error 20 exactly the requests in which some parameter is NaN, and with
error 21 exactly those in which all parameters are numbers but the month
lies outside [1, 12]; integerhood is not checked.  In particular month 13
and month 0 fail with InvalidInput (witness below). -/
theorem C8_validation (st : Store) (plan : Plan) (now : Timestamp)
    (idQ yearQ monthQ : Option Rat) :
    ((getReportHandler st plan now idQ yearQ monthQ).result = .appError 20
      ↔ (idQ = none ∨ yearQ = none ∨ monthQ = none))
    ∧ ((getReportHandler st plan now idQ yearQ monthQ).result = .appError 21
      ↔ ∃ u y m, idQ = some u ∧ yearQ = some y ∧ monthQ = some m
          ∧ (m < 1 ∨ 12 < m))
    ∧ (((getReportHandler st plan now idQ yearQ monthQ).result = .appError 20
        ∨ (getReportHandler st plan now idQ yearQ monthQ).result = .appError 21) →
      (getReportHandler st plan now idQ yearQ monthQ).store = st
        ∧ (getReportHandler st plan now idQ yearQ monthQ).trace = ⟨0, 0, 0⟩) := by
  rcases idQ with _ | u
  · refine ⟨by simp [getReportHandler], by simp [getReportHandler], ?_⟩
    intro _
    exact ⟨rfl, rfl⟩
  rcases yearQ with _ | y
  · refine ⟨by simp [getReportHandler], by simp [getReportHandler], ?_⟩
    intro _
    exact ⟨rfl, rfl⟩
  rcases monthQ with _ | m
  · refine ⟨by simp [getReportHandler], by simp [getReportHandler], ?_⟩
    intro _
    exact ⟨rfl, rfl⟩
  by_cases hm : m < 1 ∨ 12 < m
  · rw [handler_some_eq, if_pos hm]
    refine ⟨by simp, ?_, fun _ => ⟨rfl, rfl⟩⟩
    simp only [HOut.result]
    constructor
    · intro _
      exact ⟨u, y, m, rfl, rfl, rfl, hm⟩
    · intro _
      trivial
  · rw [handler_some_eq, if_neg hm]
    refine ⟨⟨fun h => absurd h (reportCore_no_clientError st plan now u y m 20), ?_⟩,
            ⟨fun h => absurd h (reportCore_no_clientError st plan now u y m 21), ?_⟩,
            ?_⟩
    · rintro (h | h | h) <;> simp at h
    · rintro ⟨u2, y2, m2, hu2, hy2, hm2, hr2⟩
      injection hm2 with hm3
      subst hm3
      exact absurd hr2 hm
    · rintro (h | h)
      · exact absurd h (reportCore_no_clientError st plan now u y m 20)
      · exact absurd h (reportCore_no_clientError st plan now u y m 21)

/-- Claim C8 witness: month 13 and month 0 both fail with error 21 (the
InvalidInput responses the claim names). -/
theorem C8_validation_witness :
    (getReportHandler ⟨[], [], []⟩ Plan.allOk ⟨2026, 10, 12, 0⟩
        (some 123123) (some 2025) (some 13)).result = .appError 21
    ∧ (getReportHandler ⟨[], [], []⟩ Plan.allOk ⟨2026, 10, 12, 0⟩
        (some 123123) (some 2025) (some 0)).result = .appError 21 :=
  ⟨(C8_validation ⟨[], [], []⟩ Plan.allOk ⟨2026, 10, 12, 0⟩
        (some 123123) (some 2025) (some 13)).2.1.mpr
      ⟨123123, 2025, 13, rfl, rfl, rfl, by decide⟩,
   (C8_validation ⟨[], [], []⟩ Plan.allOk ⟨2026, 10, 12, 0⟩
        (some 123123) (some 2025) (some 0)).2.1.mpr
      ⟨123123, 2025, 0, rfl, rfl, rfl, by decide⟩⟩

theorem ratTrunc_intCast (n : Int) : ratTrunc (n : Rat) = n := by
  simp [ratTrunc, Rat.num_intCast, Rat.den_intCast, Int.tdiv_one]

theorem ratTrunc_natCast (n : Nat) : ratTrunc (n : Rat) = n := by
  have h := ratTrunc_intCast (n : Int)
  simpa using h

/-- Claim C9 (counterexample): for the request (year 25, month 3), the
code's query filter accepts a record dated March 1925 — `new Date(25, 2,
1)` means 1925 under the JavaScript two-digit-year rule — even though that
createdAt does not lie in the half-open range of the requested month
(first instant of year-25 March to first instant of year-25 April). -/
theorem C9_counterexample :
    costMatches 5 25 3 ⟨"x", "food", 5, 10, ⟨1925, 3, 10, 0⟩⟩ = true
    ∧ (Timestamp.leb (specMonthStart 25 3) ⟨1925, 3, 10, 0⟩
        && Timestamp.ltb ⟨1925, 3, 10, 0⟩ (specMonthEnd 25 3)) = false := by
  decide

/-- Claim C9 (amended): for an integer year outside [0, 99] (where the
JavaScript Date constructor does not reinterpret the year as 1900 + year)
and a month in [1, 12], the record-store filter selects exactly the
records with matching userid whose createdAt lies in the half-open range
from the first instant of the requested month to the first instant of the
next month, with December rolling over to January of the following
year. -/
theorem C9_query_range (u : Rat) (y : Int) (m : Nat) (st : Store)
    (hy : y < 0 ∨ 100 ≤ y) (_hm : 1 ≤ m ∧ m ≤ 12) :
    (∀ c : CostRecord,
      costMatches u (y : Rat) (m : Rat) c
        = (decide (c.userid = u)
            && Timestamp.leb (specMonthStart y m) c.createdAt
            && Timestamp.ltb c.createdAt (specMonthEnd y m)))
    ∧ specMonthEnd y 12 = ⟨y + 1, 1, 1, 0⟩
    ∧ st.costs.filter (costMatches u (y : Rat) (m : Rat))
        = st.costs.filter fun c =>
            decide (c.userid = u)
              && Timestamp.leb (specMonthStart y m) c.createdAt
              && Timestamp.ltb c.createdAt (specMonthEnd y m) := by
  have hys : jsYear (y : Rat) = y := by
    simp only [jsYear, ratTrunc_intCast]
    rw [if_neg (by omega)]
  have hstart : jsMonthStart (y : Rat) (m : Rat) = specMonthStart y m := by
    simp [jsMonthStart, specMonthStart, hys, ratTrunc_natCast]
  have hend : jsMonthEnd (y : Rat) (m : Rat) = specMonthEnd y m := by
    simp only [jsMonthEnd, specMonthEnd, hys, ratTrunc_natCast, Int.toNat_natCast]
  have hc : ∀ c : CostRecord,
      costMatches u (y : Rat) (m : Rat) c
        = (decide (c.userid = u)
            && Timestamp.leb (specMonthStart y m) c.createdAt
            && Timestamp.ltb c.createdAt (specMonthEnd y m)) := by
    intro c
    simp [costMatches, hstart, hend]
  exact ⟨hc, by simp [specMonthEnd], List.filter_congr fun c _ => hc c⟩

/-- Claim C9 witness: for year 2025 (outside the two-digit range) the
filter agrees with the specified range at a concrete December record, and
the December range ends at the first instant of January 2026. -/
theorem C9_query_range_witness :
    costMatches 5 ((2025 : Int) : Rat) ((12 : Nat) : Rat)
        ⟨"x", "food", 5, 10, ⟨2025, 12, 31, 999⟩⟩
      = (decide ((⟨"x", "food", 5, 10, ⟨2025, 12, 31, 999⟩⟩ :
            CostRecord).userid = 5)
          && Timestamp.leb (specMonthStart 2025 12) ⟨2025, 12, 31, 999⟩
          && Timestamp.ltb ⟨2025, 12, 31, 999⟩ (specMonthEnd 2025 12)) :=
  (C9_query_range 5 2025 12 ⟨[], [], []⟩ (Or.inr (by decide)) (by decide)).1
    ⟨"x", "food", 5, 10, ⟨2025, 12, 31, 999⟩⟩

theorem buildReport_nil (u y m : Rat) :
    buildReport u y m []
      = .ok { userid := u, year := y, month := m,
              costs := reportCosts Grouped.empty } := rfl

theorem handler_users_irrelevant (us us2 : List UserRec) (cs : List CostRecord)
    (rs : List CacheEntry) (plan : Plan) (now : Timestamp) (u y m : Rat) :
    (getReportHandler ⟨us, cs, rs⟩ plan now (some u) (some y) (some m)).result
      = (getReportHandler ⟨us2, cs, rs⟩ plan now (some u) (some y) (some m)).result
    ∧ (getReportHandler ⟨us, cs, rs⟩ plan now (some u) (some y) (some m)).store.costs
      = (getReportHandler ⟨us2, cs, rs⟩ plan now (some u) (some y) (some m)).store.costs
    ∧ (getReportHandler ⟨us, cs, rs⟩ plan now (some u) (some y) (some m)).store.reports
      = (getReportHandler ⟨us2, cs, rs⟩ plan now (some u) (some y) (some m)).store.reports
    ∧ (getReportHandler ⟨us, cs, rs⟩ plan now (some u) (some y) (some m)).trace
      = (getReportHandler ⟨us2, cs, rs⟩ plan now (some u) (some y) (some m)).trace := by
  by_cases hm : m < 1 ∨ 12 < m
  · rw [handler_some_eq, handler_some_eq, if_pos hm, if_pos hm]
    exact ⟨rfl, rfl, rfl, rfl⟩
  · rw [handler_some_eq, handler_some_eq, if_neg hm, if_neg hm]
    simp only [reportCore, freshPath]
    cases hp : isPastMonth y m now <;>
      cases hl : plan.cacheLookupFails <;>
        cases hq : plan.costsQueryFails <;>
          cases hf : findCache rs u y m <;>
            cases hb : buildReport u y m (cs.filter (costMatches u y m)) <;>
              cases hs : plan.saveOutcome <;>
                simp [hp, hl, hq, hf, hb, hs]

/-- Claim C10: the report handler consults no user collection — its
response, resulting cost and cache collections, and trace are unchanged
when the users collection is replaced by any other — and for a
well-formed request by a user with no matching cost records (and no
cached report for the key) it succeeds with the correctly-shaped report
whose five buckets are all empty; by contrast the add-cost handler
rejects a userid absent from the users collection with error 8. -/
theorem C10_no_user_check (st : Store) (plan : Plan) (now : Timestamp)
    (u y m : Rat) (us : List UserRec) (hm : ¬(m < 1 ∨ 12 < m)) :
    ((getReportHandler { st with users := us } plan now
        (some u) (some y) (some m)).result
      = (getReportHandler st plan now (some u) (some y) (some m)).result)
    ∧ ((∀ c ∈ st.costs, costMatches u y m c = false) →
        findCache st.reports u y m = none →
        (getReportHandler st Plan.allOk now (some u) (some y) (some m)).result
          = .ok { userid := u, year := y, month := m,
                  costs := reportCosts Grouped.empty })
    ∧ (∀ b : AddBody, ALLOWED_CATEGORIES.contains b.category = true →
        (st.users.find? fun usr => decide (usr.id = b.userid)) = none →
        addCost st now b = (.err 8, st)) := by
  refine ⟨?_, ?_, ?_⟩
  · exact (handler_users_irrelevant us st.users st.costs st.reports plan now u y m).1
  · intro hc hf
    have hfil : st.costs.filter (costMatches u y m) = [] :=
      List.filter_eq_nil_iff.mpr fun c hcc => by simp [hc c hcc]
    rw [handler_some_eq, if_neg hm]
    by_cases hp : isPastMonth y m now
    · simp [reportCore, hp, Plan.allOk, hf, freshPath, hfil, buildReport_nil]
    · simp only [Bool.not_eq_true] at hp
      simp [reportCore, hp, Plan.allOk, freshPath, hfil, buildReport_nil]
  · intro b hcat hfind
    have hcat2 : b.category ∈ ALLOWED_CATEGORIES := by simpa using hcat
    simp [addCost, hcat2, hfind]

/-- Claim C10 witness: on the empty database — in particular no user
123123 exists — the report request succeeds with all five buckets empty,
while adding a cost for the absent user 123123 fails with error 8. -/
theorem C10_no_user_check_witness :
    (getReportHandler ⟨[], [], []⟩ Plan.allOk ⟨2026, 10, 12, 0⟩
        (some 123123) (some 2025) (some 3)).result
      = .ok { userid := 123123, year := 2025, month := 3,
              costs := reportCosts Grouped.empty }
    ∧ addCost ⟨[], [], []⟩ ⟨2026, 10, 12, 0⟩
        ⟨"lunch", "food", 123123, 7, none⟩
      = (.err 8, ⟨[], [], []⟩) :=
  ⟨(C10_no_user_check ⟨[], [], []⟩ Plan.allOk ⟨2026, 10, 12, 0⟩
        123123 2025 3 [] (by decide)).2.1 (by simp) (by rfl),
   (C10_no_user_check ⟨[], [], []⟩ Plan.allOk ⟨2026, 10, 12, 0⟩
        123123 2025 3 [] (by decide)).2.2
      ⟨"lunch", "food", 123123, 7, none⟩ (by decide) (by rfl)⟩

end CostManager
